import Mathlib

/-!
Verification of the `klifs_ids` notebook (`src/opencadd/data/klifs_ids.ipynb`).

The notebook fetches the KLIFS structures table, keeps seven identifier
columns, sorts by `structure.klifs_id`, runs two duplicate sanity checks,
and writes the table to a dated, zip-compressed CSV file which it then
reads back.

The embedding models a pandas `DataFrame` as a `Table`: a list of column
names plus rows of `Cell`s, where a cell is an integer, a string, or a
missing value (`na`).  CSV serialization is modelled at field granularity
(a header line plus one list of field strings per row): the textual
comma/quote layer of the CSV format is a bijection on fields and carries
no information of its own.  Reading back performs the same per-column
type inference the source's CSV reader does: the reader's default
missing-value tokens become `na`; a column whose every field is an
integer literal is read as integers; a column whose every field is
numeric (integer, decimal or scientific, infinities included) or
missing is promoted to floating point; a column whose every field is a
boolean token is promoted to booleans; anything else stays a string
column.  Floating-point values themselves are outside the embedding: a
promoted cell records only the source literal, which is enough because
every round-trip hypothesis below excludes promoted string columns.
-/

namespace KlifsIds

/-- A single cell of a data table.  `int`, `str` and `na` are the shapes
the notebook's tables hold; `float` and `bool` arise only on the read
side, when the CSV reader promotes a column.  A `float` cell records the
source literal: the IEEE-754 value and its formatting are outside this
embedding, and every claim's hypotheses keep float cells out of the
round-trip domain — the constructor exists so that a promoted column is
never equal to the string column it was written from. -/
inductive Cell where
  | int (n : Int)
  | str (s : String)
  | float (lit : String)
  | bool (b : Bool)
  | na
deriving DecidableEq, Repr

/-- An in-memory data table: named columns and rows of cells. -/
@[ext]
structure Table where
  cols : List String
  rows : List (List Cell)
deriving DecidableEq, Repr

/-! ### Decimal digits: serialization and parsing -/

/-- The decimal digit characters. -/
def digitToChar : Nat → Char
  | 0 => '0'
  | 1 => '1'
  | 2 => '2'
  | 3 => '3'
  | 4 => '4'
  | 5 => '5'
  | 6 => '6'
  | 7 => '7'
  | 8 => '8'
  | 9 => '9'
  | _ => '0'

/-- Numeric value of a decimal digit character. -/
def charToDigit (c : Char) : Nat := c.toNat - 48

/-- Is `c` one of `'0'`..`'9'`? -/
def isDigitChar (c : Char) : Bool := decide (48 ≤ c.toNat) && decide (c.toNat ≤ 57)

/-- Little-endian base-10 digits of `n`, with explicit fuel so that the
definition is structural (and hence evaluates inside the kernel). -/
def digitsRev : Nat → Nat → List Nat
  | 0, _ => []
  | fuel + 1, n => if n = 0 then [] else n % 10 :: digitsRev fuel (n / 10)

/-- Little-endian base-10 digits of `n` (`n` itself is enough fuel). -/
def natDigits (n : Nat) : List Nat := digitsRev n n

/-- Decimal string of a natural number. -/
def natToString (n : Nat) : String :=
  if n = 0 then "0" else String.mk (((natDigits n).map digitToChar).reverse)

/-- Decimal string of an integer (a leading `'-'` when negative). -/
def intToString (n : Int) : String :=
  if n < 0 then "-" ++ natToString n.natAbs else natToString n.natAbs

/-- Value of a big-endian list of decimal digit characters. -/
def digitsToNat (l : List Char) : Nat := Nat.ofDigits 10 ((l.map charToDigit).reverse)

/-- Parse a list of characters as a decimal integer literal: an optional
sign followed by at least one digit.  Anything else parses to `none`. -/
def parseIntChars? : List Char → Option Int
  | [] => none
  | c :: cs =>
    if c = '-' then
      if cs = [] then none
      else if cs.all isDigitChar then some (-(digitsToNat cs : Int)) else none
    else if c = '+' then
      if cs = [] then none
      else if cs.all isDigitChar then some ((digitsToNat cs : Int)) else none
    else if (c :: cs).all isDigitChar then some ((digitsToNat (c :: cs) : Int)) else none

/-- Drop leading and trailing space characters (the reader's numeric
converters tolerate surrounding spaces). -/
def trimSpaces (l : List Char) : List Char :=
  ((l.dropWhile fun c => decide (c = ' ')).reverse.dropWhile fun c => decide (c = ' ')).reverse

/-- Parse a string as a decimal integer literal, spaces around it allowed. -/
def parseInt? (s : String) : Option Int := parseIntChars? (trimSpaces s.data)

/-! ### CSV fields -/

/-- Field tokens the CSV reader treats as missing values: the reader's
default NA list. -/
def naTokens : List String :=
  ["", "#N/A", "#N/A N/A", "#NA", "-1.#IND", "-1.#QNAN", "-NaN", "-nan",
   "1.#IND", "1.#QNAN", "<NA>", "N/A", "NA", "NULL", "NaN", "None",
   "n/a", "nan", "null"]

/-- The field string a cell is written as (missing cells as empty
fields).  Float cells write their recorded literal: their true
formatting is outside the embedding and no claim writes float or bool
cells. -/
def cellToString : Cell → String
  | .int n => intToString n
  | .str s => s
  | .float lit => lit
  | .bool b => if b then "True" else "False"
  | .na => ""

/-! ### Table operations of the notebook -/

/-- The seven identifier columns the notebook keeps, in their fixed order. -/
def sevenCols : List String :=
  ["structure.klifs_id", "structure.pdb_id", "structure.alternate_model",
   "structure.chain", "kinase.klifs_name", "kinase.klifs_id", "ligand.expo_id"]

/-- The grouping key of the structures sanity check. -/
def tripleCols : List String :=
  ["structure.pdb_id", "structure.alternate_model", "structure.chain"]

/-- The two columns the ligands sanity check prints. -/
def ligandCols : List String := ["ligand.klifs_id", "ligand.expo_id"]

/-- The cell of a row at position `i` (missing when the row is shorter). -/
def cellAt (r : List Cell) (i : Nat) : Cell := r.getD i Cell.na

/-- Position of a named column in a table. -/
def getCol (t : Table) (c : String) : Nat := t.cols.indexOf c

/-- A row's cells under the named columns of `t`, in the order of `cs`
(the tuple a pandas column selection or group key is built from). -/
def keyAt (t : Table) (cs : List String) (r : List Cell) : List Cell :=
  cs.map fun c => cellAt r (getCol t c)

/-- `t[[cs]]`: keep the columns named in `cs`, in that order. -/
def selectCols (t : Table) (cs : List String) : Table :=
  { cols := cs, rows := t.rows.map fun r => keyAt t cs r }

/-- The notebook's projection: `structures_all[[...seven id columns...]]`. -/
def projectStep (t : Table) : Table := selectCols t sevenCols

/-- Character comparison by code point. -/
def charLt (a b : Char) : Bool := decide (a.toNat < b.toNat)

/-- Lexicographic comparison of character lists. -/
def charsLe : List Char → List Char → Bool
  | [], _ => true
  | _ :: _, [] => false
  | a :: as, b :: bs => if a = b then charsLe as bs else charLt a b

/-- Lexicographic comparison of strings. -/
def strLe (a b : String) : Bool := charsLe a.data b.data

/-- The total order the sort uses on cells (the notebook sorts the integer
structure-id column and the string expo-id column; the other cases only
make the order total). -/
def cellLe : Cell → Cell → Bool
  | .na, _ => true
  | .int _, .na => false
  | .int a, .int b => decide (a ≤ b)
  | .int _, .float _ => true
  | .int _, .bool _ => true
  | .int _, .str _ => true
  | .float _, .na => false
  | .float _, .int _ => false
  | .float a, .float b => strLe a b
  | .float _, .bool _ => true
  | .float _, .str _ => true
  | .bool _, .na => false
  | .bool _, .int _ => false
  | .bool _, .float _ => false
  | .bool x, .bool y => decide (x ≤ y)
  | .bool _, .str _ => true
  | .str _, .na => false
  | .str _, .int _ => false
  | .str _, .float _ => false
  | .str _, .bool _ => false
  | .str a, .str b => strLe a b

/-- Row comparison by the cell in column position `i`. -/
def rowLe (i : Nat) (r s : List Cell) : Prop := cellLe (cellAt r i) (cellAt s i) = true

instance (i : Nat) : DecidableRel (rowLe i) := fun r s => by
  unfold rowLe; infer_instance

/-- `t.sort_values(c)`: reorder the rows ascending by column `c`. -/
def sortStep (t : Table) (c : String) : Table :=
  { cols := t.cols, rows := t.rows.insertionSort (rowLe (getCol t c)) }

/-- The notebook's sort: `structures_all.sort_values("structure.klifs_id")`. -/
def sortById (t : Table) : Table := sortStep t "structure.klifs_id"

/-! ### Duplicate sanity checks -/

/-- How many rows of `t` carry the group key `k` under the columns `cs`
(the size `groupby(cs).size()` reports for `k`). -/
def countKey (t : Table) (cs : List String) (k : List Cell) : Nat :=
  (t.rows.map (keyAt t cs)).count k

/-- `groupby(cs).size()`: each distinct key with its group size. -/
def groupSizes (t : Table) (cs : List String) : List (List Cell × Nat) :=
  ((t.rows.map (keyAt t cs)).dedup).map fun k => (k, countKey t cs k)

/-- What a sanity-check cell prints: the offending groups and whether it
ended in the `"All good!"` branch.  The check only prints; it returns
normally either way and leaves the table untouched. -/
structure CheckReport where
  printedGroups : List (List Cell × Nat)
  allGood : Bool
deriving DecidableEq, Repr

/-- The structures sanity check: group by (pdb id, alternate model, chain)
and print the groups of size above one, else print `"All good!"`. -/
def structuresCheck (t : Table) : CheckReport :=
  let big := (groupSizes t tripleCols).filter fun p => decide (1 < p.2)
  if big.isEmpty then { printedGroups := [], allGood := true }
  else { printedGroups := big, allGood := false }

/-- What the ligands sanity-check cell prints: the (klifs id, expo id)
rows of the colliding ligands, and whether it ended in `"All good!"`. -/
structure LigandReport where
  printedRows : List (List Cell)
  allGood : Bool
deriving DecidableEq, Repr

/-- The ligands sanity check: group by `ligand.expo_id`; when some group
has size above one, print the `[ligand.klifs_id, ligand.expo_id]` columns
of every row whose expo id lies in such a group, sorted by expo id. -/
def ligandsCheck (t : Table) : LigandReport :=
  let dup := (groupSizes t ["ligand.expo_id"]).filter fun p => decide (1 < p.2)
  if dup.isEmpty then { printedRows := [], allGood := true }
  else
    let sel := t.rows.filter fun r => dup.any fun p => decide (p.1 = keyAt t ["ligand.expo_id"] r)
    { printedRows := (sel.map (keyAt t ligandCols)).insertionSort (rowLe 1), allGood := false }

/-! ### Persistence: CSV writing and reading -/

/-- A CSV file at field granularity: the header line and one list of field
strings per data row.  The comma/quote layer of the concrete format is a
bijection on fields and is not modelled. -/
structure CsvFile where
  header : List String
  records : List (List String)
deriving DecidableEq, Repr

/-- `t.to_csv(index)`: stringify every cell; with `index` set, prepend the
row label column (positional labels, header left empty).  The notebook
always passes `index = false` (`index=None`). -/
def tableToCsv (t : Table) (index : Bool) : CsvFile :=
  if index then
    { header := "" :: t.cols,
      records := t.rows.enum.map fun p => natToString p.1 :: p.2.map cellToString }
  else
    { header := t.cols, records := t.rows.map fun r => r.map cellToString }

/-- Drop one optional leading sign character. -/
def dropSign : List Char → List Char
  | '+' :: cs => cs
  | '-' :: cs => cs
  | cs => cs

/-- Spellings of infinity the reader's float converter accepts. -/
def infWords : List String := ["inf", "Inf", "INF", "infinity", "Infinity", "INFINITY"]

/-- Digits with at most one decimal point and at least one digit. -/
def mantissaOk (l : List Char) : Bool :=
  match (l.span isDigitChar).2 with
  | [] => !l.isEmpty
  | '.' :: rest =>
    (!(l.span isDigitChar).1.isEmpty || !rest.isEmpty) && rest.all isDigitChar
  | _ => false

/-- An optional exponent part: `e`/`E`, an optional sign, digits. -/
def exponentOk : List Char → Bool
  | [] => true
  | c :: rest =>
    (decide (c = 'e') || decide (c = 'E')) &&
      (!(dropSign rest).isEmpty && (dropSign rest).all isDigitChar)

/-- Does the reader's float converter accept these characters?  An
optional sign, then an infinity word or a decimal mantissa with an
optional scientific exponent. -/
def isFloatChars (l : List Char) : Bool :=
  decide (String.mk (dropSign l) ∈ infWords) ||
    (mantissaOk ((dropSign l).span fun c => !(decide (c = 'e') || decide (c = 'E'))).1 &&
      exponentOk ((dropSign l).span fun c => !(decide (c = 'e') || decide (c = 'E'))).2)

/-- Is the field numeric to the reader: an integer literal or a
float/scientific literal (spaces around it allowed)? -/
def isNumericField (s : String) : Bool :=
  (parseInt? s).isSome || isFloatChars (trimSpaces s.data)

/-- The boolean tokens the reader's bool converter accepts as true. -/
def trueWords : List String := ["True", "TRUE", "true"]

/-- The boolean tokens the reader's bool converter accepts as false. -/
def falseWords : List String := ["False", "FALSE", "false"]

/-- Is the field a boolean token? -/
def isBoolToken (s : String) : Bool :=
  decide (s ∈ trueWords) || decide (s ∈ falseWords)

/-- The type the reader infers for a column. -/
inductive ColType where
  | ints
  | floats
  | bools
  | strings
deriving DecidableEq, Repr

/-- The reader's type inference for column `j`: all integer literals
gives integers; all numeric-or-missing gives floating point (so an
integer column with missing values is promoted, and so is a column of
decimal or scientific literals); all boolean tokens gives booleans;
anything else stays a string (object) column. -/
def colTypeAt (recs : List (List String)) (j : Nat) : ColType :=
  if recs.all fun r => (parseInt? (r.getD j "")).isSome then ColType.ints
  else if recs.all fun r =>
      decide ((r.getD j "") ∈ naTokens) || isNumericField (r.getD j "") then ColType.floats
  else if recs.all fun r => isBoolToken (r.getD j "") then ColType.bools
  else ColType.strings

/-- How the CSV reader turns the field `f` of column `j` into a cell:
missing-value tokens become `na`; otherwise the cell follows the
column's inferred type. -/
def parseFieldAt (recs : List (List String)) (j : Nat) (f : String) : Cell :=
  if f ∈ naTokens then Cell.na
  else
    match colTypeAt recs j with
    | ColType.ints =>
      match parseInt? f with
      | some n => Cell.int n
      | none => Cell.str f
    | ColType.floats => Cell.float f
    | ColType.bools => Cell.bool (decide (f ∈ trueWords))
    | ColType.strings => Cell.str f

/-- `pd.read_csv`: parse every field with per-column type inference. -/
def csvToTable (f : CsvFile) : Table :=
  { cols := f.header,
    rows := f.records.map fun r => r.enum.map fun p => parseFieldAt f.records p.1 p.2 }

/-! ### Shapes of tables the round-trip preserves -/

/-- Is the cell an integer? -/
def isIntCell : Cell → Bool
  | .int _ => true
  | _ => false

/-- Is the cell a string that is not a missing-value token? -/
def cleanStrCell : Cell → Bool
  | .str s => decide (s ∉ naTokens)
  | _ => false

/-- Is the cell a string the reader cannot promote: neither numeric
(integer, decimal or scientific) nor a boolean token? -/
def unpromotedStrCell : Cell → Bool
  | .str s => !isNumericField s && !isBoolToken s
  | _ => false

/-- Every row has exactly one cell per column. -/
def rectangular (t : Table) : Bool :=
  t.rows.all fun r => decide (r.length = t.cols.length)

/-- Column `j` holds integers in every row. -/
def intColumn (t : Table) (j : Nat) : Bool :=
  t.rows.all fun r => isIntCell (cellAt r j)

/-- Column `j` holds strings, none a missing-value token and at least
one that is neither numeric nor a boolean token (so that read-back type
inference keeps the column as strings). -/
def cleanStrColumn (t : Table) (j : Nat) : Bool :=
  (t.rows.all fun r => cleanStrCell (cellAt r j)) &&
    (t.rows.any fun r => unpromotedStrCell (cellAt r j))

/-- Every column is an integer column or a clean string column. -/
def goodColumns (t : Table) : Bool :=
  (List.range t.cols.length).all fun j => intColumn t j || cleanStrColumn t j

/-! ### The dated output file -/

/-- Zero-pad a number below 100 to two digits (`strftime`'s `%m`, `%d`). -/
def pad2 (n : Nat) : String := if n < 10 then "0" ++ natToString n else natToString n

/-- `date.today().strftime("%Y%m%d")` for the date `y`-`m`-`d`. -/
def dateStamp (y m d : Nat) : String := natToString y ++ pad2 m ++ pad2 d

/-- The output file's name: `klifs_ids.<YYYYMMDD>.csv.zip`. -/
def klifsFileName (y m d : Nat) : String :=
  "klifs_ids." ++ dateStamp y m d ++ ".csv.zip"

/-- The written archive: its name, its compression, and its CSV payload. -/
structure SavedFile where
  name : String
  compression : String
  csv : CsvFile
deriving DecidableEq, Repr

/-- `structures_all.to_csv(filename, index=None, compression="zip")` run on
the date `y`-`m`-`d`. -/
def persistStep (t : Table) (y m d : Nat) : SavedFile :=
  { name := klifsFileName y m d, compression := "zip", csv := tableToCsv t false }

/-- The structures pipeline of the notebook, with the remote fetch and the
file write as opaque fallible collaborators.  No step installs a handler:
a collaborator's error is returned as is. -/
def runPipeline (fetched : Except String Table) (y m d : Nat)
    (write : SavedFile → Except String Unit) : Except String SavedFile :=
  match fetched with
  | .error e => .error e
  | .ok t0 =>
    let t1 := projectStep t0
    let t2 := sortById t1
    let _report := structuresCheck t2
    let f := persistStep t2 y m d
    match write f with
    | .error e => .error e
    | .ok _ => .ok f

/-! ### Concrete tables (the seeded rows shown in the notebook) -/

/-- Seeded structures row with KLIFS id 1 (`3dko`, EphA7). -/
def row1 : List Cell :=
  [.int 1, .str "3dko", .str "A", .str "A", .str "EphA7", .int 415, .str "IHZ"]

/-- Seeded structures row with KLIFS id 2 (`2rei`, EphA7, no ligand). -/
def row2 : List Cell :=
  [.int 2, .str "2rei", .str "B", .str "A", .str "EphA7", .int 415, .str "-"]

/-- Seeded structures row with KLIFS id 3 (`3dko`, EphA7). -/
def row3 : List Cell :=
  [.int 3, .str "3dko", .str "B", .str "A", .str "EphA7", .int 415, .str "IHZ"]

/-- Seeded structures row with KLIFS id 4 (`2rei`, EphA7, no ligand). -/
def row4 : List Cell :=
  [.int 4, .str "2rei", .str "A", .str "A", .str "EphA7", .int 415, .str "-"]

/-- Seeded structures row with KLIFS id 5 (`3v8t`, ITK, ligand `477`). -/
def row5 : List Cell :=
  [.int 5, .str "3v8t", .str "B", .str "A", .str "ITK", .int 474, .str "477"]

/-- The five seeded rows in fetched (unsorted) order. -/
def seededTable : Table := { cols := sevenCols, rows := [row3, row1, row4, row5, row2] }

/-- The five seeded rows sorted ascending by structure id. -/
def sortedSeeded : Table := { cols := sevenCols, rows := [row1, row2, row3, row4, row5] }

/-- A fetched table with an extra (eighth) column, as the remote service
returns more than the seven identifier columns. -/
def fetchedSample : Table :=
  { cols := sevenCols ++ ["structure.dfg"],
    rows := [row3 ++ [.str "in"], row1 ++ [.str "in"], row4 ++ [.str "out"],
             row5 ++ [.str "in"], row2 ++ [.str "out"]] }

/-- A ligands table with the `6VL` and `7KC` collisions the notebook found. -/
def ligandsSample : Table :=
  { cols := ligandCols,
    rows := [[.int 65, .str "7KC"], [.int 3015, .str "6VL"], [.int 1, .str "ATP"],
             [.int 2967, .str "7KC"], [.int 3065, .str "6VL"]] }

/-- A one-row projected, sorted structures table whose ligand expo id is the
all-numeric code `477` (a real code occurring in the data). -/
def badTable : Table := { cols := sevenCols, rows := [row5] }

end KlifsIds

namespace KlifsIds

/-! ### Lemmas about the decimal machinery -/

theorem digitsRev_eq_digits : ∀ (fuel n : Nat), n ≤ fuel → digitsRev fuel n = Nat.digits 10 n := by
  intro fuel
  induction fuel with
  | zero =>
    intro n hn
    interval_cases n
    simp [digitsRev]
  | succ fuel ih =>
    intro n hn
    by_cases h0 : n = 0
    · simp [digitsRev, h0]
    · have hpos : 0 < n := Nat.pos_of_ne_zero h0
      rw [digitsRev, if_neg h0, Nat.digits_def' (by norm_num) hpos, ih]
      have hlt : n / 10 < n := Nat.div_lt_self hpos (by norm_num)
      omega

theorem natDigits_eq (n : Nat) : natDigits n = Nat.digits 10 n :=
  digitsRev_eq_digits n n le_rfl

theorem natDigits_lt (n : Nat) : ∀ d ∈ natDigits n, d < 10 := by
  intro d hd
  rw [natDigits_eq] at hd
  exact Nat.digits_lt_base (by norm_num) hd

theorem charToDigit_digitToChar : ∀ d, d < 10 → charToDigit (digitToChar d) = d := by decide

theorem isDigitChar_digitToChar : ∀ d, d < 10 → isDigitChar (digitToChar d) = true := by decide

theorem digitsToNat_digits (n : Nat) :
    digitsToNat (((natDigits n).map digitToChar).reverse) = n := by
  unfold digitsToNat
  rw [List.map_reverse, List.reverse_reverse, List.map_map]
  have h : (natDigits n).map (charToDigit ∘ digitToChar) = (natDigits n).map id := by
    apply List.map_congr_left
    intro d hd
    exact charToDigit_digitToChar d (natDigits_lt n d hd)
  rw [h, List.map_id, natDigits_eq, Nat.ofDigits_digits]

theorem natToString_data (n : Nat) (h : n ≠ 0) :
    (natToString n).data = ((natDigits n).map digitToChar).reverse := by
  simp [natToString, h]

theorem natToString_data_ne_nil (n : Nat) : (natToString n).data ≠ [] := by
  by_cases h : n = 0
  · subst h; decide
  · rw [natToString_data n h]
    simp only [ne_eq, List.reverse_eq_nil_iff, List.map_eq_nil_iff]
    rw [natDigits_eq]
    exact Nat.digits_ne_nil_iff_ne_zero.mpr h

theorem natToString_all_digits (n : Nat) :
    (natToString n).data.all isDigitChar = true := by
  by_cases h : n = 0
  · subst h; decide
  · rw [natToString_data n h]
    simp only [List.all_eq_true, List.mem_reverse, List.mem_map]
    rintro c ⟨d, hd, rfl⟩
    exact isDigitChar_digitToChar d (natDigits_lt n d hd)

theorem isDigitChar_ne_dash {c : Char} (h : isDigitChar c = true) : c ≠ '-' := by
  rintro rfl
  exact absurd h (by decide)

theorem isDigitChar_ne_plus {c : Char} (h : isDigitChar c = true) : c ≠ '+' := by
  rintro rfl
  exact absurd h (by decide)

theorem isDigitChar_ne_space {c : Char} (h : isDigitChar c = true) : c ≠ ' ' := by
  rintro rfl
  exact absurd h (by decide)

theorem dropWhile_spaces_eq_self (l : List Char) (h : ∀ c ∈ l, c ≠ ' ') :
    (l.dropWhile fun c => decide (c = ' ')) = l := by
  cases l with
  | nil => rfl
  | cons a as =>
    have ha : a ≠ ' ' := h a (List.mem_cons_self a as)
    rw [List.dropWhile_cons, if_neg (by simpa using ha)]

theorem trimSpaces_eq_self (l : List Char) (h : ∀ c ∈ l, c ≠ ' ') : trimSpaces l = l := by
  unfold trimSpaces
  rw [dropWhile_spaces_eq_self l h,
    dropWhile_spaces_eq_self _ (fun c hc => h c (List.mem_reverse.mp hc)),
    List.reverse_reverse]

theorem parseInt?_of_digits (s : String) (hne : s.data ≠ [])
    (hall : s.data.all isDigitChar = true) :
    parseInt? s = some ((digitsToNat s.data : Nat) : Int) := by
  have hns : ∀ c ∈ s.data, c ≠ ' ' := by
    intro c hc
    rw [List.all_eq_true] at hall
    exact isDigitChar_ne_space (hall c hc)
  unfold parseInt?
  rw [trimSpaces_eq_self s.data hns]
  rcases hd : s.data with _ | ⟨c, cs⟩
  · exact absurd hd hne
  · have hc : isDigitChar c = true := by
      have := hall; rw [hd] at this
      simp only [List.all_cons, Bool.and_eq_true] at this
      exact this.1
    rw [hd] at hall
    rw [parseIntChars?, if_neg (isDigitChar_ne_dash hc),
      if_neg (isDigitChar_ne_plus hc), if_pos hall]

theorem parseInt?_natToString (n : Nat) : parseInt? (natToString n) = some (n : Int) := by
  rw [parseInt?_of_digits (natToString n) (natToString_data_ne_nil n) (natToString_all_digits n)]
  by_cases h : n = 0
  · subst h; decide
  · rw [natToString_data n h, digitsToNat_digits]

theorem parseInt?_intToString (n : Int) : parseInt? (intToString n) = some n := by
  by_cases h : n < 0
  · have hne := natToString_data_ne_nil n.natAbs
    have hall := natToString_all_digits n.natAbs
    have habs : n.natAbs ≠ 0 := by omega
    have hdata : (intToString n).data = '-' :: (natToString n.natAbs).data := by
      simp [intToString, h, String.data_append]
    have hns : ∀ c ∈ (intToString n).data, c ≠ ' ' := by
      rw [hdata]
      intro c hc
      rcases List.mem_cons.mp hc with rfl | hmem
      · decide
      · rw [List.all_eq_true] at hall
        exact isDigitChar_ne_space (hall c hmem)
    unfold parseInt?
    rw [trimSpaces_eq_self _ hns, hdata, parseIntChars?, if_pos rfl, if_neg hne, if_pos hall]
    rw [natToString_data n.natAbs habs, digitsToNat_digits]
    congr 1
    omega
  · have : intToString n = natToString n.natAbs := by simp [intToString, h]
    rw [this, parseInt?_natToString]
    congr 1
    omega

theorem naTokens_parse_none : ∀ s ∈ naTokens, parseInt? s = none := by decide

theorem intToString_not_na (n : Int) : intToString n ∉ naTokens := by
  intro h
  have := naTokens_parse_none _ h
  rw [parseInt?_intToString] at this
  exact Option.noConfusion this

/-! ### The sort relation is total and transitive -/

theorem charToNat_injective {a b : Char} (h : a.toNat = b.toNat) : a = b :=
  StrictMono.injective (f := Char.toNat) (fun _ _ hab => hab) h

theorem charsLe_total : ∀ (l1 l2 : List Char), charsLe l1 l2 = true ∨ charsLe l2 l1 = true
  | [], _ => Or.inl rfl
  | _ :: _, [] => Or.inr rfl
  | a :: as, b :: bs => by
    by_cases hab : a = b
    · subst hab
      simpa [charsLe] using charsLe_total as bs
    · have hne : a.toNat ≠ b.toNat := fun h => hab (charToNat_injective h)
      rcases Nat.lt_or_ge a.toNat b.toNat with h | h
      · left
        simp [charsLe, if_neg hab, charLt, h]
      · right
        have hlt : b.toNat < a.toNat := by omega
        simp [charsLe, if_neg (Ne.symm hab), charLt, hlt]

theorem charsLe_trans : ∀ (l1 l2 l3 : List Char),
    charsLe l1 l2 = true → charsLe l2 l3 = true → charsLe l1 l3 = true
  | [], _, _, _, _ => rfl
  | _ :: _, [], _, h12, _ => by simp [charsLe] at h12
  | _ :: _, _ :: _, [], _, h23 => by simp [charsLe] at h23
  | a :: as, b :: bs, c :: cs, h12, h23 => by
    by_cases hab : a = b <;> by_cases hbc : b = c
    · subst hab; subst hbc
      simp only [charsLe, if_pos rfl] at h12 h23 ⊢
      exact charsLe_trans as bs cs h12 h23
    · subst hab
      simp only [charsLe, if_pos rfl, if_neg hbc] at h12 h23 ⊢
      exact h23
    · subst hbc
      simp only [charsLe, if_pos rfl, if_neg hab] at h12 h23 ⊢
      exact h12
    · simp only [charsLe, if_neg hab, if_neg hbc, charLt, decide_eq_true_eq] at h12 h23
      have hac : a ≠ c := fun h => by subst h; omega
      simp only [charsLe, if_neg hac, charLt, decide_eq_true_eq]
      omega

theorem cellLe_total (a b : Cell) : cellLe a b = true ∨ cellLe b a = true := by
  cases a <;> cases b <;> simp [cellLe, strLe] <;>
    first
    | omega
    | exact charsLe_total _ _
    | exact le_total _ _

theorem cellLe_trans {a b c : Cell} (h1 : cellLe a b = true) (h2 : cellLe b c = true) :
    cellLe a c = true := by
  cases a <;> cases b <;> cases c <;>
    simp only [cellLe, strLe, decide_eq_true_eq] at h1 h2 ⊢ <;>
    first
    | rfl
    | omega
    | exact charsLe_trans _ _ _ h1 h2
    | exact absurd h1 Bool.false_ne_true
    | exact absurd h2 Bool.false_ne_true
    | exact le_trans h1 h2

instance (i : Nat) : IsTotal (List Cell) (rowLe i) :=
  ⟨fun r s => cellLe_total (cellAt r i) (cellAt s i)⟩

instance (i : Nat) : IsTrans (List Cell) (rowLe i) :=
  ⟨fun _ _ _ h1 h2 => cellLe_trans h1 h2⟩

/-! ### Group sizes and the duplicate filter -/

theorem mem_groupSizes {t : Table} {cs : List String} {k : List Cell} {n : Nat} :
    (k, n) ∈ groupSizes t cs ↔ k ∈ t.rows.map (keyAt t cs) ∧ n = countKey t cs k := by
  unfold groupSizes
  rw [List.mem_map]
  constructor
  · rintro ⟨k', hk', hkn⟩
    rw [Prod.mk.injEq] at hkn
    obtain ⟨rfl, rfl⟩ := hkn
    exact ⟨List.mem_dedup.mp hk', rfl⟩
  · rintro ⟨hk, rfl⟩
    exact ⟨k, List.mem_dedup.mpr hk, rfl⟩

theorem mem_dupFilter {t : Table} {cs : List String} {k : List Cell} {n : Nat} :
    (k, n) ∈ ((groupSizes t cs).filter fun p => decide (1 < p.2)) ↔
      n = countKey t cs k ∧ 1 < n := by
  rw [List.mem_filter, mem_groupSizes]
  simp only [decide_eq_true_eq]
  constructor
  · rintro ⟨⟨_, rfl⟩, hn⟩
    exact ⟨rfl, hn⟩
  · rintro ⟨rfl, hn⟩
    refine ⟨⟨?_, rfl⟩, hn⟩
    have : 0 < countKey t cs k := by omega
    exact List.count_pos_iff.mp this

theorem dupFilter_isEmpty {t : Table} {cs : List String} :
    ((groupSizes t cs).filter fun p => decide (1 < p.2)).isEmpty = true ↔
      ∀ k, countKey t cs k ≤ 1 := by
  rw [List.isEmpty_iff, List.eq_nil_iff_forall_not_mem]
  constructor
  · intro h k
    by_contra hk
    exact h (k, countKey t cs k) (mem_dupFilter.mpr ⟨rfl, by omega⟩)
  · rintro h ⟨k, n⟩ hkn
    obtain ⟨rfl, hn⟩ := mem_dupFilter.mp hkn
    exact absurd (h k) (by omega)

/-! ### Round-trip lemmas -/

theorem cellAt_eq_getElem {r : List Cell} {i : Nat} (h : i < r.length) : cellAt r i = r[i] :=
  List.getD_eq_getElem r Cell.na h

theorem cellAt_of_len_le {r : List Cell} {i : Nat} (h : r.length ≤ i) : cellAt r i = Cell.na := by
  unfold cellAt
  rw [List.getD_eq_default]
  exact h

theorem stringRow_getD {r : List Cell} {i : Nat} (h : i < r.length) :
    (r.map cellToString).getD i "" = cellToString r[i] := by
  rw [List.getD_eq_getElem _ _ (by simpa using h), List.getElem_map]

theorem readRow_getD (recs : List (List String)) (r : List String) (i : Nat)
    (h : i < r.length) :
    (r.enum.map fun p => parseFieldAt recs p.1 p.2).getD i Cell.na =
      parseFieldAt recs i (r.getD i "") := by
  have h1 : i < (r.enum.map fun p => parseFieldAt recs p.1 p.2).length := by
    simpa [List.enum_length] using h
  rw [List.getD_eq_getElem _ _ h1, List.getElem_map, List.getElem_enum,
    List.getD_eq_getElem _ _ h]

theorem rectangular_spec {t : Table} (h : rectangular t = true) :
    ∀ r ∈ t.rows, r.length = t.cols.length := by
  rw [rectangular, List.all_eq_true] at h
  intro r hr
  simpa using h r hr

theorem colTypeAt_ints_of_intColumn {t : Table} {j : Nat} (hint : intColumn t j = true) :
    colTypeAt (t.rows.map fun r => r.map cellToString) j = ColType.ints := by
  have hcond : ((t.rows.map fun r => r.map cellToString).all
      fun r => (parseInt? (r.getD j "")).isSome) = true := by
    rw [List.all_eq_true]
    intro rec hrec
    rw [List.mem_map] at hrec
    obtain ⟨r, hr, rfl⟩ := hrec
    have hcell := List.all_eq_true.mp hint r hr
    have hjr : j < r.length := by
      by_contra hj
      rw [cellAt_of_len_le (by omega)] at hcell
      exact absurd hcell (by simp [isIntCell])
    rw [stringRow_getD hjr]
    rw [cellAt_eq_getElem hjr] at hcell
    rcases hc : r[j] with n | s | l | b | _ <;> rw [hc] at hcell
    · simp [cellToString, parseInt?_intToString]
    · exact absurd hcell (by simp [isIntCell])
    · exact absurd hcell (by simp [isIntCell])
    · exact absurd hcell (by simp [isIntCell])
    · exact absurd hcell (by simp [isIntCell])
  rw [colTypeAt, if_pos hcond]

theorem colTypeAt_strings_of_witness {t : Table} {j : Nat} {r2 : List Cell}
    (hr2 : r2 ∈ t.rows) (hw : unpromotedStrCell (cellAt r2 j) = true)
    (hcl : cleanStrCell (cellAt r2 j) = true) :
    colTypeAt (t.rows.map fun r => r.map cellToString) j = ColType.strings := by
  have hjr : j < r2.length := by
    by_contra hj
    rw [cellAt_of_len_le (by omega)] at hw
    exact absurd hw (by simp [unpromotedStrCell])
  rcases hc : cellAt r2 j with n | s | l | b | _ <;> rw [hc] at hw hcl
  · exact absurd hw (by simp [unpromotedStrCell])
  · rw [cleanStrCell, decide_eq_true_eq] at hcl
    rw [unpromotedStrCell, Bool.and_eq_true] at hw
    obtain ⟨hw1, hw2⟩ := hw
    have hnum : isNumericField s = false := by
      cases hx : isNumericField s
      · rfl
      · rw [hx] at hw1
        exact absurd hw1 (by decide)
    have hbool : isBoolToken s = false := by
      cases hx : isBoolToken s
      · rfl
      · rw [hx] at hw2
        exact absurd hw2 (by decide)
    have hfield : (r2.map cellToString).getD j "" = s := by
      rw [stringRow_getD hjr, ← cellAt_eq_getElem hjr, hc, cellToString]
    have hmem : (r2.map cellToString) ∈ t.rows.map fun r => r.map cellToString :=
      List.mem_map_of_mem _ hr2
    have hps : (parseInt? s).isSome = false := by
      cases hx : (parseInt? s).isSome
      · rfl
      · rw [isNumericField, hx] at hnum
        exact absurd hnum (by simp)
    have h1 : ¬((t.rows.map fun r => r.map cellToString).all
        fun r => (parseInt? (r.getD j "")).isSome) = true := by
      intro hall
      rw [List.all_eq_true] at hall
      have hthis := hall _ hmem
      rw [hfield, hps] at hthis
      exact Bool.noConfusion hthis
    have h2 : ¬((t.rows.map fun r => r.map cellToString).all
        fun r => decide ((r.getD j "") ∈ naTokens) || isNumericField (r.getD j "")) = true := by
      intro hall
      rw [List.all_eq_true] at hall
      have hthis := hall _ hmem
      rw [hfield, decide_eq_false hcl, hnum] at hthis
      exact absurd hthis (by simp)
    have h3 : ¬((t.rows.map fun r => r.map cellToString).all
        fun r => isBoolToken (r.getD j "")) = true := by
      intro hall
      rw [List.all_eq_true] at hall
      have hthis := hall _ hmem
      rw [hfield, hbool] at hthis
      exact Bool.noConfusion hthis
    rw [colTypeAt, if_neg h1, if_neg h2, if_neg h3]
  · exact absurd hw (by simp [unpromotedStrCell])
  · exact absurd hw (by simp [unpromotedStrCell])
  · exact absurd hw (by simp [unpromotedStrCell])

theorem parseFieldAt_int (recs : List (List String)) (j : Nat) (n : Int)
    (hcol : colTypeAt recs j = ColType.ints) :
    parseFieldAt recs j (intToString n) = Cell.int n := by
  rw [parseFieldAt, if_neg (intToString_not_na n), hcol]
  simp [parseInt?_intToString]

theorem parseFieldAt_strings (recs : List (List String)) (j : Nat) (s : String)
    (hna : s ∉ naTokens) (hcol : colTypeAt recs j = ColType.strings) :
    parseFieldAt recs j s = Cell.str s := by
  rw [parseFieldAt, if_neg hna, hcol]

theorem csvToTable_rows (t : Table) :
    (csvToTable (tableToCsv t false)).rows =
      t.rows.map fun r0 => ((r0.map cellToString).enum.map fun p =>
        parseFieldAt (t.rows.map fun r => r.map cellToString) p.1 p.2) := by
  simp only [csvToTable, tableToCsv, Bool.false_eq_true, if_false, List.map_map]
  rfl

theorem readBack_row (t : Table) (hrect : rectangular t = true)
    (hcols : goodColumns t = true) (r0 : List Cell) (hr0 : r0 ∈ t.rows) (i : Nat)
    (hi : i < r0.length) :
    parseFieldAt (t.rows.map fun r => r.map cellToString) i (cellToString r0[i]) = r0[i] := by
  have hlen : r0.length = t.cols.length := rectangular_spec hrect r0 hr0
  have hic : i < t.cols.length := by omega
  have hgood := List.all_eq_true.mp hcols i (List.mem_range.mpr hic)
  rw [Bool.or_eq_true] at hgood
  rcases hgood with hint | hclean
  · have hcell := List.all_eq_true.mp hint r0 hr0
    rw [cellAt_eq_getElem hi] at hcell
    rcases hc : r0[i] with n | s | l | b | _ <;> rw [hc] at hcell
    · rw [cellToString, parseFieldAt_int _ _ _ (colTypeAt_ints_of_intColumn hint)]
    · exact absurd hcell (by simp [isIntCell])
    · exact absurd hcell (by simp [isIntCell])
    · exact absurd hcell (by simp [isIntCell])
    · exact absurd hcell (by simp [isIntCell])
  · rw [cleanStrColumn, Bool.and_eq_true] at hclean
    obtain ⟨hall, hany⟩ := hclean
    obtain ⟨r2, hr2, hw⟩ := List.any_eq_true.mp hany
    have hcl2 : cleanStrCell (cellAt r2 i) = true := List.all_eq_true.mp hall r2 hr2
    have hcell := List.all_eq_true.mp hall r0 hr0
    rw [cellAt_eq_getElem hi] at hcell
    rcases hc : r0[i] with n | s | l | b | _ <;> rw [hc] at hcell
    · exact absurd hcell (by simp [cleanStrCell])
    · have hna : s ∉ naTokens := by
        rw [cleanStrCell, decide_eq_true_eq] at hcell
        exact hcell
      rw [cellToString, parseFieldAt_strings _ _ _ hna
        (colTypeAt_strings_of_witness hr2 hw hcl2)]
    · exact absurd hcell (by simp [cleanStrCell])
    · exact absurd hcell (by simp [cleanStrCell])
    · exact absurd hcell (by simp [cleanStrCell])

/-! ### The date stamp -/

theorem natToString_length (n : Nat) (h : n ≠ 0) :
    (natToString n).length = (Nat.digits 10 n).length := by
  have hl : (natToString n).length = (natToString n).data.length := rfl
  rw [hl, natToString_data n h]
  simp [natDigits_eq]

theorem natToString_length_of (n k : Nat) (h1 : 10 ^ k ≤ n) (h2 : n < 10 ^ (k + 1)) :
    (natToString n).length = k + 1 := by
  have hp : 0 < 10 ^ k := Nat.pos_pow_of_pos k (by norm_num)
  have hn : n ≠ 0 := by omega
  rw [natToString_length n hn, Nat.digits_len 10 n (by norm_num) hn,
    Nat.log_eq_of_pow_le_of_lt_pow h1 h2]

theorem pad2_length (m : Nat) (h : m ≤ 99) : (pad2 m).length = 2 := by
  unfold pad2
  by_cases hm : m < 10
  · rw [if_pos hm, String.length_append]
    by_cases h0 : m = 0
    · subst h0; decide
    · rw [natToString_length_of m 0 (by omega) (by omega)]
      decide
  · rw [if_neg hm, natToString_length_of m 1 (by omega) (by omega)]

theorem dateStamp_length (y m d : Nat) (hy1 : 1000 ≤ y) (hy2 : y ≤ 9999)
    (hm : m ≤ 99) (hd : d ≤ 99) : (dateStamp y m d).length = 8 := by
  unfold dateStamp
  rw [String.length_append, String.length_append,
    natToString_length_of y 3 (by omega) (by omega), pad2_length m hm, pad2_length d hd]

theorem natToString_digits_mem (n : Nat) :
    ∀ c ∈ (natToString n).data, isDigitChar c = true := by
  intro c hc
  have := natToString_all_digits n
  rw [List.all_eq_true] at this
  exact this c hc

theorem pad2_digits (m : Nat) : ∀ c ∈ (pad2 m).data, isDigitChar c = true := by
  intro c hc
  unfold pad2 at hc
  by_cases hm : m < 10
  · rw [if_pos hm, String.data_append] at hc
    rcases List.mem_append.mp hc with h | h
    · simp only [show ("0" : String).data = ['0'] from rfl, List.mem_singleton] at h
      subst h; decide
    · exact natToString_digits_mem m c h
  · rw [if_neg hm] at hc
    exact natToString_digits_mem m c hc

theorem dateStamp_digits (y m d : Nat) :
    ∀ c ∈ (dateStamp y m d).data, isDigitChar c = true := by
  intro c hc
  unfold dateStamp at hc
  rw [String.data_append, String.data_append] at hc
  rcases List.mem_append.mp hc with h | h
  · rcases List.mem_append.mp h with h2 | h2
    · exact natToString_digits_mem y c h2
    · exact pad2_digits m c h2
  · exact pad2_digits d c h

/-! ### Unfolding the sanity checks -/

theorem structuresCheck_eq (t : Table) :
    structuresCheck t =
      if ((groupSizes t tripleCols).filter fun p => decide (1 < p.2)).isEmpty = true
      then { printedGroups := [], allGood := true }
      else { printedGroups := (groupSizes t tripleCols).filter fun p => decide (1 < p.2),
             allGood := false } := rfl

theorem ligandsCheck_eq (t : Table) :
    ligandsCheck t =
      if ((groupSizes t ["ligand.expo_id"]).filter fun p => decide (1 < p.2)).isEmpty = true
      then { printedRows := [], allGood := true }
      else
        { printedRows :=
            ((t.rows.filter fun r =>
                ((groupSizes t ["ligand.expo_id"]).filter fun p => decide (1 < p.2)).any
                  fun p => decide (p.1 = keyAt t ["ligand.expo_id"] r)).map
              (keyAt t ligandCols)).insertionSort (rowLe 1),
          allGood := false } := rfl

/-! ### The claims -/

/-- C1 (as amended): writing a projected, sorted structures table to the
archive and reading it back yields the same table — same cell values,
same column order, row index ignored — provided the table is rectangular
and every column is either all integers or all strings none of which is
a missing-value token and at least one of which the reader cannot
promote (neither an integer, decimal or scientific numeric literal nor
a boolean token), so that read-back type inference restores the
original column types.  The real data satisfies this through its `"-"`
sentinels and alphabetic identifiers. -/
theorem C1_roundtrip_amended (t : Table) (hrect : rectangular t = true)
    (hcols : goodColumns t = true) :
    csvToTable (tableToCsv t false) = t := by
  apply Table.ext
  · rfl
  · rw [csvToTable_rows]
    conv_rhs => rw [← List.map_id t.rows]
    apply List.map_congr_left
    intro r0 hr0
    simp only [id_eq]
    apply List.ext_getElem
    · simp [List.enum_length]
    · intro i h1 h2
      rw [List.getElem_map, List.getElem_enum, List.getElem_map]
      exact readBack_row t hrect hcols r0 hr0 i h2

/-- C1 witness: the five seeded rows, sorted, survive the round-trip. -/
theorem C1_roundtrip_witness :
    csvToTable (tableToCsv sortedSeeded false) = sortedSeeded :=
  C1_roundtrip_amended sortedSeeded (by decide) (by decide)

/-- C1 counterexample: a one-row projected, sorted structures table whose
ligand expo id is the all-numeric string `"477"` (a real PDB expo code)
does not survive the round-trip: the reader's type inference turns the
expo-id column into integers, so the read table differs from the written
one. -/
theorem C1_roundtrip_counterexample :
    csvToTable (tableToCsv badTable false) ≠ badTable := by decide

/-- C2: after the sort step the rows are ordered ascending by
`structure.klifs_id`; in particular the five seeded rows (ids 1–5,
EphA7/415 four times, ITK/474 once) come out exactly in ascending
structure-id order with their values intact. -/
theorem C2_sort_ascending :
    (∀ t : Table, List.Sorted (rowLe (getCol t "structure.klifs_id")) (sortById t).rows) ∧
    sortById seededTable = sortedSeeded :=
  ⟨fun t => List.sorted_insertionSort _ _, by decide⟩

/-- C3: the structures duplicate check groups rows by
(pdb id, alternate model, chain); it ends in the success branch exactly
when no key occurs more than once, and a group is printed exactly when
its size exceeds one.  The check is a total function: it only reports
and never raises or aborts. -/
theorem C3_structures_duplicate_check (t : Table) :
    ((structuresCheck t).allGood = true ↔ ∀ k, countKey t tripleCols k ≤ 1) ∧
    (∀ k n, (k, n) ∈ (structuresCheck t).printedGroups ↔
      n = countKey t tripleCols k ∧ 1 < n) := by
  rw [structuresCheck_eq]
  by_cases hb : ((groupSizes t tripleCols).filter fun p => decide (1 < p.2)).isEmpty = true
  · rw [if_pos hb]
    constructor
    · simpa using dupFilter_isEmpty.mp hb
    · intro k n
      simp only [List.not_mem_nil, false_iff, not_and]
      rintro rfl hn
      have hmem := mem_dupFilter.mpr ⟨rfl, hn⟩
      rw [List.isEmpty_iff.mp hb] at hmem
      exact List.not_mem_nil _ hmem
  · rw [if_neg hb]
    constructor
    · simp only [Bool.false_eq_true, false_iff, not_forall]
      by_contra hall
      push_neg at hall
      exact hb (dupFilter_isEmpty.mpr fun k => by have := hall k; omega)
    · intro k n
      exact mem_dupFilter

/-- C4: the projection keeps exactly the seven identifier columns in
their fixed order, each projected row has exactly seven cells, no row is
added or dropped, and the persisted file's header lists the same seven
columns in the same order. -/
theorem C4_projection (t : Table) :
    (projectStep t).cols = sevenCols ∧
    sevenCols.length = 7 ∧
    (projectStep t).rows.length = t.rows.length ∧
    (∀ r ∈ (projectStep t).rows, r.length = 7) ∧
    (tableToCsv (sortById (projectStep t)) false).header = sevenCols := by
  refine ⟨rfl, rfl, by simp [projectStep, selectCols], ?_, rfl⟩
  intro r hr
  rw [projectStep, selectCols] at hr
  simp only [List.mem_map] at hr
  obtain ⟨r0, _, rfl⟩ := hr
  simp [keyAt, sevenCols]

/-- C5: a cell holding the literal sentinel string `"-"` (as the
alternate-model and ligand-expo-id columns do) reads back from the
written archive as the literal string `"-"`, not as a missing value. -/
theorem C5_sentinel_roundtrip (t : Table) (k i : Nat)
    (h : cellAt (t.rows.getD k []) i = Cell.str "-") :
    cellAt ((csvToTable (tableToCsv t false)).rows.getD k []) i = Cell.str "-" := by
  have hk : k < t.rows.length := by
    by_contra hk
    rw [List.getD_eq_default _ _ (by omega)] at h
    exact Cell.noConfusion h
  rw [List.getD_eq_getElem _ _ hk] at h
  have hr0 : t.rows[k] ∈ t.rows := List.getElem_mem hk
  have hi : i < (t.rows[k]).length := by
    by_contra hic
    rw [cellAt_of_len_le (by omega)] at h
    exact Cell.noConfusion h
  rw [cellAt_eq_getElem hi] at h
  rw [csvToTable_rows, List.getD_eq_getElem _ _ (by simpa using hk), List.getElem_map]
  have hi2 : i < ((t.rows[k]).map cellToString).length := by simpa using hi
  show ((((t.rows[k]).map cellToString).enum.map fun p =>
      parseFieldAt (t.rows.map fun r => r.map cellToString) p.1 p.2)).getD i Cell.na =
    Cell.str "-"
  rw [readRow_getD _ _ i hi2, stringRow_getD hi, h]
  have hcellAt : cellAt (t.rows[k]) i = Cell.str "-" := by
    rw [cellAt_eq_getElem hi, h]
  have hw : unpromotedStrCell (cellAt (t.rows[k]) i) = true := by
    rw [hcellAt]; decide
  have hcl : cleanStrCell (cellAt (t.rows[k]) i) = true := by
    rw [hcellAt]; decide
  exact parseFieldAt_strings _ i "-" (by decide)
    (colTypeAt_strings_of_witness hr0 hw hcl)

/-- C5 witness: the seeded row with id 2 stores `"-"` as its ligand expo
id (column 6) and reads it back literally. -/
theorem C5_sentinel_witness :
    cellAt ((csvToTable (tableToCsv sortedSeeded false)).rows.getD 1 []) 6 = Cell.str "-" :=
  C5_sentinel_roundtrip sortedSeeded 1 6 (by decide)

/-- C6: the persistence step writes a file named exactly
`klifs_ids.<YYYYMMDD>.csv.zip` — the date stamp has eight digit
characters — with zip compression, and the CSV has no row-index column:
its header is exactly the table's columns and its records are exactly
the stringified rows. -/
theorem C6_persist_file (t : Table) (y m d : Nat) (hy1 : 1000 ≤ y) (hy2 : y ≤ 9999)
    (hm : m ≤ 12) (hd : d ≤ 31) :
    (persistStep t y m d).name = "klifs_ids." ++ dateStamp y m d ++ ".csv.zip" ∧
    (dateStamp y m d).length = 8 ∧
    (∀ c ∈ (dateStamp y m d).data, isDigitChar c = true) ∧
    (persistStep t y m d).compression = "zip" ∧
    (persistStep t y m d).csv.header = t.cols ∧
    (persistStep t y m d).csv.records = t.rows.map fun r => r.map cellToString :=
  ⟨rfl, dateStamp_length y m d hy1 hy2 (by omega) (by omega), dateStamp_digits y m d,
    rfl, rfl, rfl⟩

/-- C6 witness: on 2021-03-07 the file is `klifs_ids.20210307.csv.zip`. -/
theorem C6_persist_file_witness :
    (persistStep sortedSeeded 2021 3 7).name =
        "klifs_ids." ++ dateStamp 2021 3 7 ++ ".csv.zip" ∧
      (dateStamp 2021 3 7).length = 8 :=
  have h := C6_persist_file sortedSeeded 2021 3 7 (by decide) (by decide) (by decide) (by decide)
  ⟨h.1, h.2.1⟩

/-- C7: the ligands duplicate check groups by `ligand.expo_id`; every row
whose expo id occurs more than once appears (as its
`[ligand.klifs_id, ligand.expo_id]` pair) in the printed report, the
check succeeds exactly when no expo id repeats, and in the sample table
the two ligand ids 3015 and 3065 sharing expo id `"6VL"` both appear in
the report.  The check only reports: it returns no modified table and
never raises. -/
theorem C7_ligands_duplicate_check (t : Table) :
    (∀ r ∈ t.rows, 1 < countKey t ["ligand.expo_id"] (keyAt t ["ligand.expo_id"] r) →
      keyAt t ligandCols r ∈ (ligandsCheck t).printedRows) ∧
    ((ligandsCheck t).allGood = true ↔ ∀ k, countKey t ["ligand.expo_id"] k ≤ 1) ∧
    [Cell.int 3015, Cell.str "6VL"] ∈ (ligandsCheck ligandsSample).printedRows ∧
    [Cell.int 3065, Cell.str "6VL"] ∈ (ligandsCheck ligandsSample).printedRows := by
  refine ⟨?_, ?_, by decide, by decide⟩
  · intro r hr hcount
    have hmem := mem_dupFilter.mpr ⟨rfl, hcount⟩
    have hne : ¬(((groupSizes t ["ligand.expo_id"]).filter
        fun p => decide (1 < p.2)).isEmpty = true) := by
      rw [List.isEmpty_iff]
      intro hnil
      rw [hnil] at hmem
      exact List.not_mem_nil _ hmem
    rw [ligandsCheck_eq, if_neg hne]
    rw [(List.perm_insertionSort _ _).mem_iff]
    apply List.mem_map_of_mem
    rw [List.mem_filter]
    refine ⟨hr, ?_⟩
    rw [List.any_eq_true]
    exact ⟨_, hmem, by simp⟩
  · rw [ligandsCheck_eq]
    by_cases hb : ((groupSizes t ["ligand.expo_id"]).filter
        fun p => decide (1 < p.2)).isEmpty = true
    · rw [if_pos hb]
      simpa using dupFilter_isEmpty.mp hb
    · rw [if_neg hb]
      simp only [Bool.false_eq_true, false_iff, not_forall]
      by_contra hall
      push_neg at hall
      exact hb (dupFilter_isEmpty.mpr fun k => by have := hall k; omega)

/-- C8: the pipeline installs no handler: a fetch error or a write error
propagates out of the pipeline unmodified. -/
theorem C8_error_propagation (y m d : Nat) (write : SavedFile → Except String Unit)
    (e : String) :
    (runPipeline (Except.error e) y m d write = Except.error e) ∧
    (∀ t : Table, write (persistStep (sortById (projectStep t)) y m d) = Except.error e →
      runPipeline (Except.ok t) y m d write = Except.error e) := by
  refine ⟨rfl, ?_⟩
  intro t hw
  simp [runPipeline, hw]

/-- C9: no step mutates a record: every row of the sorted, projected
table is exactly the seven named cells of some fetched row, each cell
equal to the fetched value. -/
theorem C9_records_read_only (t : Table) (r : List Cell)
    (hr : r ∈ (sortById (projectStep t)).rows) :
    ∃ r0 ∈ t.rows, r = keyAt t sevenCols r0 ∧
      ∀ j, (hj : j < sevenCols.length) →
        cellAt r j = cellAt r0 (getCol t sevenCols[j]) := by
  have hmem : r ∈ (projectStep t).rows :=
    (List.perm_insertionSort (rowLe (getCol (projectStep t) "structure.klifs_id"))
      (projectStep t).rows).mem_iff.mp hr
  rw [projectStep, selectCols] at hmem
  simp only [List.mem_map] at hmem
  obtain ⟨r0, hr0, rfl⟩ := hmem
  refine ⟨r0, hr0, rfl, ?_⟩
  intro j hj
  rw [keyAt, cellAt_eq_getElem (by simpa using hj), List.getElem_map]

/-- C9 witness: the seeded row with id 1 survives projection and sort
with every cell equal to its fetched value. -/
theorem C9_records_read_only_witness :
    ∃ r0 ∈ fetchedSample.rows, row1 = keyAt fetchedSample sevenCols r0 ∧
      ∀ j, (hj : j < sevenCols.length) →
        cellAt row1 j = cellAt r0 (getCol fetchedSample sevenCols[j]) :=
  C9_records_read_only fetchedSample row1 (by decide)

/-- C10: the sort is a permutation of the projected rows, projection
keeps one row per fetched row, the written records are exactly the
stringified sorted rows, and the pipeline (with a succeeding write)
persists exactly the sorted, projected table: no intermediate step adds,
drops or duplicates a row. -/
theorem C10_row_multiset (t : Table) (y m d : Nat) :
    ((sortById (projectStep t)).rows).Perm ((projectStep t).rows) ∧
    (projectStep t).rows.length = t.rows.length ∧
    ((persistStep (sortById (projectStep t)) y m d).csv.records =
      ((sortById (projectStep t)).rows).map fun r => r.map cellToString) ∧
    runPipeline (Except.ok t) y m d (fun _ => Except.ok ()) =
      Except.ok (persistStep (sortById (projectStep t)) y m d) :=
  ⟨List.perm_insertionSort _ _, by simp [projectStep, selectCols], rfl, rfl⟩

end KlifsIds
